import Mathlib

/-!
Shallow embedding of the IDE Companion Bridge (gemini-cli nvim companion).

The definitions below are translated from the TypeScript sources:
* `packages/nvim-ide-companion/src/context-manager.ts` (ContextManager),
* `packages/core/src/ide/port-file-manager.ts` together with the shared IDE
  server (`createIdeServer`): security middlewares, POST /mcp dispatch,
  keep-alive, start/stop lifecycle, `cleanupStaleFiles`,
* `packages/nvim-ide-companion/src/nvim-env-writer.ts`
  (NvimEnvironmentWriter) and the process `exit` handler in `index.ts`.

JavaScript strings are modelled as `String` where only equality matters
(paths, headers) and as `List Char` where lengths and truncation matter
(`selectedText`).  JavaScript object identity is modelled explicitly for the
ContextManager: `File` objects live in a store indexed by `Nat` references,
mirroring the fact that `ContextManager.state` copies the array of
references but not the `File` objects themselves.
-/

namespace IdeBridge

/-! ### Data model (context-manager.ts) -/

def MAX_FILES : Nat := 10

def MAX_SELECTED_TEXT_LENGTH : Nat := 16384

structure Cursor where
  line : Int
  character : Int
deriving Repr, DecidableEq

structure File where
  path : String
  timestamp : Nat
  isActive : Bool
  cursor : Option Cursor := none
  selectedText : Option (List Char) := none
deriving Repr, DecidableEq

/-- The heap of `File` objects: JS object references are `Nat`. -/
structure CMState where
  openFiles : List Nat
  store : Nat → File
  nextRef : Nat

def emptyFile : File := { path := "", timestamp := 0, isActive := false }

/-- `private openFiles: File[] = []` — fresh ContextManager. -/
def initCM : CMState := { openFiles := [], store := fun _ => emptyFile, nextRef := 0 }

/-- In-place mutation of the object at reference `r`. -/
def setRef (s : Nat → File) (r : Nat) (f : File) : Nat → File :=
  fun r2 => if r2 = r then f else s r2

/-- `{ ...file, isActive: false, cursor: undefined, selectedText: undefined }`
applied in place: the demotion performed on the previously active file in
`handleBufferEnter`. -/
def demote (f : File) : File :=
  { f with isActive := false, cursor := none, selectedText := none }

/-- `this.openFiles.find((f) => f.isActive)` on the reference list. -/
def findActiveRef (σ : CMState) : Option Nat :=
  σ.openFiles.find? (fun r => (σ.store r).isActive)

/-- The store after the "deactivate previous active file" block of
`handleBufferEnter`. -/
def deactivateStore (σ : CMState) : Nat → File :=
  match findActiveRef σ with
  | some r => setRef σ.store r (demote (σ.store r))
  | none => σ.store

/-- `{ path, timestamp: Date.now(), isActive: true }`. -/
def newFile (p : String) (t : Nat) : File :=
  { path := p, timestamp := t, isActive := true }

/-- The reference list after the "remove if exists" block
(`findIndex` + `splice(index, 1)` erases the first entry whose path is `p`). -/
def bufferEnterRefs (p : String) (σ : CMState) : List Nat :=
  σ.openFiles.eraseP (fun r => ((deactivateStore σ) r).path == p)

/-- `if (this.openFiles.length > MAX_FILES) this.openFiles.pop()` — a single
`pop` removes the last element. -/
def capRefs (refs : List Nat) : List Nat :=
  if refs.length > MAX_FILES then refs.dropLast else refs

/-- `handleBufferEnter` (context-manager.ts lines 52–82): demote the active
file, `splice` out any entry with the same path (first match), `unshift` a
fresh active entry, and `pop` once if the length exceeds `MAX_FILES`. -/
def handleBufferEnter (p : String) (t : Nat) (σ : CMState) : CMState :=
  { openFiles := capRefs (σ.nextRef :: bufferEnterRefs p σ),
    store := setRef (deactivateStore σ) σ.nextRef (newFile p t),
    nextRef := σ.nextRef + 1 }

/-- `handleCursorMoved` (lines 84–95): mutate the active file's `cursor` in
place; no active file means no change. -/
def handleCursorMoved (line col : Int) (σ : CMState) : CMState :=
  match findActiveRef σ with
  | some r =>
      { σ with
        store := setRef σ.store r
          { σ.store r with cursor := some { line := line, character := col } } }
  | none => σ

/-- `selectedText && selectedText.length > MAX ? substring(0, MAX)
: (selectedText || undefined)` — the value stored by `handleVisualChanged`. -/
def storedSelectedText (ts : List Char) : Option (List Char) :=
  if !ts.isEmpty && decide (MAX_SELECTED_TEXT_LENGTH < ts.length) then
    some (ts.take MAX_SELECTED_TEXT_LENGTH)
  else if ts.isEmpty then none else some ts

/-- `handleVisualChanged` (lines 97–112): mutate the active file's
`selectedText` in place. -/
def handleVisualChanged (ts : List Char) (σ : CMState) : CMState :=
  match findActiveRef σ with
  | some r =>
      { σ with store := setRef σ.store r { σ.store r with selectedText := storedSelectedText ts } }
  | none => σ

/-- `handleBufferClosed` (lines 114–121): `splice` out the first entry whose
path equals `p` (if any). -/
def handleBufferClosed (p : String) (σ : CMState) : CMState :=
  { σ with openFiles := σ.openFiles.eraseP (fun r => (σ.store r).path == p) }

/-- The ingress event vocabulary dispatched in `setupSubscriptions`.  The
`bufnr` of `buffer_enter` is received but never read by the handler; the
timestamp argument stands for `Date.now()`. -/
inductive Event where
  | bufferEnter (path : String) (bufnr : Nat) (time : Nat)
  | cursorMoved (line col : Int)
  | visualChanged (selectedText : List Char)
  | bufferClosed (path : String)

def step (σ : CMState) : Event → CMState
  | .bufferEnter p _ t => handleBufferEnter p t σ
  | .cursorMoved l c => handleCursorMoved l c σ
  | .visualChanged ts => handleVisualChanged ts σ
  | .bufferClosed p => handleBufferClosed p σ

/-- Apply a finite sequence of ingress events to a fresh ContextManager. -/
def run (es : List Event) : CMState := es.foldl step initCM

structure WorkspaceState where
  openFiles : List File
  isTrusted : Bool
deriving Repr, DecidableEq

structure IdeContext where
  workspaceState : WorkspaceState
deriving Repr, DecidableEq

/-- The reference array handed out by the getter: `[...this.openFiles]`
copies the array, not the `File` objects. -/
def snapshotRefs (σ : CMState) : List Nat := σ.openFiles

/-- What a holder of a reference array observes through the live heap. -/
def viewRefs (σ : CMState) (refs : List Nat) : List File := refs.map σ.store

/-- `get state(): IdeContext` (lines 132–139). -/
def state (σ : CMState) : IdeContext :=
  { workspaceState := { openFiles := viewRefs σ (snapshotRefs σ), isTrusted := true } }

/-! ### Well-formedness of the ContextManager state -/

/-- Structural invariant on a reference list w.r.t. a store: paths are
pairwise distinct, at most one referenced file is active, references are
pairwise distinct and below the allocation bound. -/
def WFon (refs : List Nat) (store : Nat → File) (next : Nat) : Prop :=
  (refs.map fun r => (store r).path).Nodup ∧
  refs.countP (fun r => (store r).isActive) ≤ 1 ∧
  refs.Nodup ∧
  ∀ r ∈ refs, r < next

def WF (σ : CMState) : Prop :=
  σ.openFiles.length ≤ MAX_FILES ∧ WFon σ.openFiles σ.store σ.nextRef

theorem WF_initCM : WF initCM := by
  refine ⟨by simp [initCM], by simp [WFon, initCM]⟩

theorem setRef_same (s : Nat → File) (r : Nat) (f : File) : setRef s r f r = f := by
  simp [setRef]

theorem setRef_other (s : Nat → File) (r : Nat) (f : File) {r2 : Nat} (h : r2 ≠ r) :
    setRef s r f r2 = s r2 := by
  simp [setRef, h]

theorem WFon_sublist {refs refs2 : List Nat} {store : Nat → File} {next : Nat}
    (hsub : List.Sublist refs2 refs) (h : WFon refs store next) : WFon refs2 store next := by
  obtain ⟨hpaths, hact, hnd, hbound⟩ := h
  exact ⟨hpaths.sublist (hsub.map _), le_trans (hsub.countP_le _) hact, hnd.sublist hsub,
    fun r hr => hbound r (hsub.subset hr)⟩

theorem WFon_congr {refs : List Nat} {store store2 : Nat → File} {next : Nat}
    (hpath : ∀ r ∈ refs, (store2 r).path = (store r).path)
    (hact : ∀ r ∈ refs, (store2 r).isActive = (store r).isActive)
    (h : WFon refs store next) : WFon refs store2 next := by
  obtain ⟨hpaths, hactc, hnd, hbound⟩ := h
  refine ⟨?_, ?_, hnd, hbound⟩
  · rw [List.map_congr_left hpath]; exact hpaths
  · rw [List.countP_congr (fun r hr => by rw [hact r hr])]; exact hactc

/-- In a list whose `countP` is at most one, two members satisfying the
predicate coincide. -/
theorem eq_of_countP_le_one {l : List Nat} {p : Nat → Bool} (hc : l.countP p ≤ 1)
    {a b : Nat} (ha : a ∈ l) (hpa : p a = true) (hb : b ∈ l) (hpb : p b = true) : a = b := by
  induction l with
  | nil => cases ha
  | cons x l ih =>
    rw [List.countP_cons] at hc
    rcases List.mem_cons.mp ha with rfl | ha' <;> rcases List.mem_cons.mp hb with rfl | hb'
    · rfl
    · rw [hpa, if_pos rfl] at hc
      have h0 : l.countP p = 0 := by omega
      exact absurd hpb ((List.countP_eq_zero.mp h0) b hb')
    · rw [hpb, if_pos rfl] at hc
      have h0 : l.countP p = 0 := by omega
      exact absurd hpa ((List.countP_eq_zero.mp h0) a ha')
    · cases hpx : p x
      · rw [hpx, if_neg (by simp)] at hc
        exact ih (by omega) ha' hb'
      · rw [hpx, if_pos rfl] at hc
        have h0 : l.countP p = 0 := by omega
        exact absurd hpa ((List.countP_eq_zero.mp h0) a ha')

theorem findActiveRef_mem {σ : CMState} {r0 : Nat} (h : findActiveRef σ = some r0) :
    r0 ∈ σ.openFiles :=
  List.mem_of_find?_eq_some h

theorem findActiveRef_isActive {σ : CMState} {r0 : Nat} (h : findActiveRef σ = some r0) :
    (σ.store r0).isActive = true := by
  have h2 : σ.openFiles.find? (fun r => (σ.store r).isActive) = some r0 := h
  have h3 := List.find?_some h2
  exact h3

/-- Mutating one referenced `File` without changing its path or activity flag
preserves the invariant. -/
theorem WF_setRef_preserving {σ : CMState} (h : WF σ) (r0 : Nat) (f : File)
    (hpath : f.path = (σ.store r0).path) (hact : f.isActive = (σ.store r0).isActive) :
    WF { σ with store := setRef σ.store r0 f } := by
  obtain ⟨hlen, hWFon⟩ := h
  refine ⟨hlen, WFon_congr ?_ ?_ hWFon⟩ <;> intro r hr <;> dsimp only at hr ⊢ <;>
    by_cases hr0 : r = r0
  · subst hr0; rw [setRef_same]; exact hpath
  · rw [setRef_other _ _ _ hr0]
  · subst hr0; rw [setRef_same]; exact hact
  · rw [setRef_other _ _ _ hr0]

theorem deactivateStore_eq_some {σ : CMState} {r0 : Nat} (h : findActiveRef σ = some r0) :
    deactivateStore σ = setRef σ.store r0 (demote (σ.store r0)) := by
  unfold deactivateStore; rw [h]

theorem deactivateStore_eq_none {σ : CMState} (h : findActiveRef σ = none) :
    deactivateStore σ = σ.store := by
  unfold deactivateStore; rw [h]

theorem deactivateStore_path (σ : CMState) (r : Nat) :
    (deactivateStore σ r).path = (σ.store r).path := by
  cases hfind : findActiveRef σ with
  | none => rw [deactivateStore_eq_none hfind]
  | some r0 =>
    rw [deactivateStore_eq_some hfind]
    by_cases h : r = r0
    · subst h; rw [setRef_same]; rfl
    · rw [setRef_other _ _ _ h]

/-- After the demotion block of `handleBufferEnter`, no file in the list is
active (given the invariant's "at most one active" bound). -/
theorem deactivateStore_inactive (σ : CMState)
    (hact : σ.openFiles.countP (fun r => (σ.store r).isActive) ≤ 1) :
    ∀ r ∈ σ.openFiles, (deactivateStore σ r).isActive = false := by
  intro r hr
  cases hfind : findActiveRef σ with
  | none =>
    rw [deactivateStore_eq_none hfind]
    have := List.find?_eq_none.mp hfind r hr
    simpa using this
  | some r0 =>
    rw [deactivateStore_eq_some hfind]
    by_cases h : r = r0
    · subst h; rw [setRef_same]; rfl
    · rw [setRef_other _ _ _ h]
      cases hra : (σ.store r).isActive
      · rfl
      · exact absurd
          (eq_of_countP_le_one hact hr hra (findActiveRef_mem hfind)
            (findActiveRef_isActive hfind)) h

/-- After erasing the first entry whose image under `f` equals `b`, no entry
maps to `b` — provided images were pairwise distinct. -/
theorem eraseP_beq_image {l : List Nat} {f : Nat → String} (hnd : (l.map f).Nodup)
    (b : String) : ∀ r ∈ l.eraseP (fun a => f a == b), f r ≠ b := by
  induction l with
  | nil => simp [List.eraseP]
  | cons x l ih =>
    rw [List.map_cons, List.nodup_cons] at hnd
    intro r hr
    rw [List.eraseP_cons] at hr
    by_cases hx : f x = b
    · rw [show (f x == b) = true by simpa using hx, cond_true] at hr
      intro hrb
      exact hnd.1 (by rw [hx, ← hrb]; exact List.mem_map_of_mem f hr)
    · rw [show (f x == b) = false by simpa using hx, cond_false] at hr
      rcases List.mem_cons.mp hr with rfl | hr'
      · exact hx
      · exact ih hnd.2 r hr'

theorem capRefs_wf {refs : List Nat} {store : Nat → File} {next : Nat}
    (hlen : refs.length ≤ MAX_FILES + 1) (h : WFon refs store next) :
    (capRefs refs).length ≤ MAX_FILES ∧ WFon (capRefs refs) store next := by
  unfold capRefs
  by_cases hover : refs.length > MAX_FILES
  · rw [if_pos hover]
    exact ⟨by rw [List.length_dropLast]; omega, WFon_sublist refs.dropLast_sublist h⟩
  · rw [if_neg hover]
    exact ⟨by omega, h⟩

theorem WF_handleBufferEnter {σ : CMState} (h : WF σ) (p : String) (t : Nat) :
    WF (handleBufferEnter p t σ) := by
  obtain ⟨hlen, hpaths, hact, hnd, hbound⟩ := h
  have hsub1 : List.Sublist (bufferEnterRefs p σ) σ.openFiles := List.eraseP_sublist σ.openFiles
  have hpath1 : ∀ r, (deactivateStore σ r).path = (σ.store r).path := deactivateStore_path σ
  have hinact1 : ∀ r ∈ σ.openFiles, (deactivateStore σ r).isActive = false :=
    deactivateStore_inactive σ hact
  -- the original list mapped through the demoted store still has distinct paths
  have hpaths1 : (σ.openFiles.map fun r => (deactivateStore σ r).path).Nodup := by
    rw [List.map_congr_left (fun r _ => hpath1 r)]; exact hpaths
  -- the erased list has no entry with path p
  have hnoP : ∀ r ∈ bufferEnterRefs p σ, (deactivateStore σ r).path ≠ p :=
    eraseP_beq_image hpaths1 p
  have hbound1 : ∀ r ∈ bufferEnterRefs p σ, r < σ.nextRef :=
    fun r hr => hbound r (hsub1.subset hr)
  have hagree : ∀ r ∈ bufferEnterRefs p σ,
      setRef (deactivateStore σ) σ.nextRef (newFile p t) r = deactivateStore σ r := by
    intro r hr
    exact setRef_other _ _ _ (Nat.ne_of_lt (hbound1 r hr))
  have hlen1 : (bufferEnterRefs p σ).length ≤ MAX_FILES := le_trans (hsub1.length_le) hlen
  have hpaths2 :
      ((σ.nextRef :: bufferEnterRefs p σ).map
        fun r => (setRef (deactivateStore σ) σ.nextRef (newFile p t) r).path).Nodup := by
    rw [List.map_cons, List.nodup_cons, setRef_same]
    constructor
    · intro hmem
      obtain ⟨r, hr, hrp⟩ := List.mem_map.mp hmem
      rw [hagree r hr] at hrp
      exact hnoP r hr hrp
    · rw [List.map_congr_left (fun r hr => by rw [hagree r hr])]
      exact hpaths1.sublist (hsub1.map _)
  have hact2 :
      (σ.nextRef :: bufferEnterRefs p σ).countP
        (fun r => (setRef (deactivateStore σ) σ.nextRef (newFile p t) r).isActive) ≤ 1 := by
    rw [List.countP_cons]
    have h0 : (bufferEnterRefs p σ).countP
        (fun r => (setRef (deactivateStore σ) σ.nextRef (newFile p t) r).isActive) = 0 := by
      rw [List.countP_eq_zero]
      intro r hr
      rw [hagree r hr]
      simp [hinact1 r (hsub1.subset hr)]
    rw [h0]
    split <;> omega
  have hnd2 : (σ.nextRef :: bufferEnterRefs p σ).Nodup := by
    rw [List.nodup_cons]
    exact ⟨fun hmem => absurd (hbound1 _ hmem) (lt_irrefl _), hnd.sublist hsub1⟩
  have hbound2 : ∀ r ∈ σ.nextRef :: bufferEnterRefs p σ, r < σ.nextRef + 1 := by
    intro r hr
    rcases List.mem_cons.mp hr with rfl | hr'
    · omega
    · exact Nat.lt_succ_of_lt (hbound1 r hr')
  have hWFon2 : WFon (σ.nextRef :: bufferEnterRefs p σ)
      (setRef (deactivateStore σ) σ.nextRef (newFile p t)) (σ.nextRef + 1) :=
    ⟨hpaths2, hact2, hnd2, hbound2⟩
  have hcap := capRefs_wf (by simpa using hlen1) hWFon2
  exact ⟨hcap.1, hcap.2⟩

theorem handleCursorMoved_eq_some {σ : CMState} {r0 : Nat} (l c : Int)
    (h : findActiveRef σ = some r0) :
    handleCursorMoved l c σ =
      { σ with
        store := setRef σ.store r0
          { σ.store r0 with cursor := some { line := l, character := c } } } := by
  unfold handleCursorMoved; rw [h]

theorem handleCursorMoved_eq_none {σ : CMState} (l c : Int) (h : findActiveRef σ = none) :
    handleCursorMoved l c σ = σ := by
  unfold handleCursorMoved; rw [h]

theorem handleVisualChanged_eq_some {σ : CMState} {r0 : Nat} (ts : List Char)
    (h : findActiveRef σ = some r0) :
    handleVisualChanged ts σ =
      { σ with
        store := setRef σ.store r0
          { σ.store r0 with selectedText := storedSelectedText ts } } := by
  unfold handleVisualChanged; rw [h]

theorem handleVisualChanged_eq_none {σ : CMState} (ts : List Char)
    (h : findActiveRef σ = none) : handleVisualChanged ts σ = σ := by
  unfold handleVisualChanged; rw [h]

theorem WF_handleCursorMoved {σ : CMState} (h : WF σ) (l c : Int) :
    WF (handleCursorMoved l c σ) := by
  cases hfind : findActiveRef σ with
  | none => rw [handleCursorMoved_eq_none l c hfind]; exact h
  | some r0 =>
    rw [handleCursorMoved_eq_some l c hfind]
    exact WF_setRef_preserving h r0 _ rfl rfl

theorem WF_handleVisualChanged {σ : CMState} (h : WF σ) (ts : List Char) :
    WF (handleVisualChanged ts σ) := by
  cases hfind : findActiveRef σ with
  | none => rw [handleVisualChanged_eq_none ts hfind]; exact h
  | some r0 =>
    rw [handleVisualChanged_eq_some ts hfind]
    exact WF_setRef_preserving h r0 _ rfl rfl

theorem WF_handleBufferClosed {σ : CMState} (h : WF σ) (p : String) :
    WF (handleBufferClosed p σ) := by
  obtain ⟨hlen, hWFon⟩ := h
  unfold handleBufferClosed
  have hsub : List.Sublist (σ.openFiles.eraseP (fun r => (σ.store r).path == p)) σ.openFiles :=
    List.eraseP_sublist σ.openFiles
  exact ⟨le_trans hsub.length_le hlen, WFon_sublist hsub hWFon⟩

theorem WF_step {σ : CMState} (h : WF σ) (e : Event) : WF (step σ e) := by
  cases e with
  | bufferEnter p b t => exact WF_handleBufferEnter h p t
  | cursorMoved l c => exact WF_handleCursorMoved h l c
  | visualChanged ts => exact WF_handleVisualChanged h ts
  | bufferClosed p => exact WF_handleBufferClosed h p

theorem WF_foldl {σ : CMState} (h : WF σ) (es : List Event) : WF (es.foldl step σ) := by
  induction es generalizing σ with
  | nil => exact h
  | cons e es ih => exact ih (WF_step h e)

theorem WF_run (es : List Event) : WF (run es) := WF_foldl WF_initCM es

/-! ### Claim C1: bounded, duplicate-free, at most one active -/

/-- C1: For every finite sequence of ingress events (buffer_enter,
cursor_moved, visual_changed, buffer_closed) applied to the Context
Aggregator starting from the empty state, the resulting FileList has length
at most 10, contains no two entries with the same path, and has at most one
entry with `isActive = true`. -/
theorem fileList_invariant (es : List Event) :
    (state (run es)).workspaceState.openFiles.length ≤ MAX_FILES ∧
    ((state (run es)).workspaceState.openFiles.map File.path).Nodup ∧
    (state (run es)).workspaceState.openFiles.countP (fun f => f.isActive) ≤ 1 := by
  obtain ⟨hlen, hpaths, hact, hnd, hbound⟩ := WF_run es
  refine ⟨?_, ?_, ?_⟩
  · simpa [state, viewRefs, snapshotRefs] using hlen
  · simpa [state, viewRefs, snapshotRefs, List.map_map, Function.comp] using hpaths
  · simpa [state, viewRefs, snapshotRefs, List.countP_map, Function.comp] using hact

/-! ### Claim C4: selectedText truncation and empty-string normalization -/

theorem storedSelectedText_long {ts : List Char} (h : MAX_SELECTED_TEXT_LENGTH < ts.length) :
    storedSelectedText ts = some (ts.take MAX_SELECTED_TEXT_LENGTH) := by
  have hne : ts.isEmpty = false := by
    cases ts
    · simp [MAX_SELECTED_TEXT_LENGTH] at h
    · rfl
  unfold storedSelectedText
  simp [hne, h]

theorem take_max_length {ts : List Char} (h : MAX_SELECTED_TEXT_LENGTH < ts.length) :
    (ts.take MAX_SELECTED_TEXT_LENGTH).length = MAX_SELECTED_TEXT_LENGTH := by
  rw [List.length_take]
  omega

/-- C4: On a visual_changed ingress event whose selectedText is longer than
16 384, the value stored on the active file has length exactly 16 384 (it is
the 16 384-long prefix); a selectedText equal to the empty string is stored
as absent. -/
theorem visualChanged_truncation (σ : CMState) (r0 : Nat)
    (hfind : findActiveRef σ = some r0) :
    (∀ ts : List Char, MAX_SELECTED_TEXT_LENGTH < ts.length →
      ((handleVisualChanged ts σ).store r0).selectedText =
          some (ts.take MAX_SELECTED_TEXT_LENGTH) ∧
      (ts.take MAX_SELECTED_TEXT_LENGTH).length = MAX_SELECTED_TEXT_LENGTH) ∧
    ((handleVisualChanged [] σ).store r0).selectedText = none := by
  constructor
  · intro ts hlen
    refine ⟨?_, take_max_length hlen⟩
    rw [handleVisualChanged_eq_some ts hfind]
    dsimp only
    rw [setRef_same]
    dsimp only
    exact storedSelectedText_long hlen
  · rw [handleVisualChanged_eq_some [] hfind]
    dsimp only
    rw [setRef_same]
    rfl

/-- A ContextManager that has just processed `buffer_enter {path:"/a"}`:
its sole entry is the active file at reference 0. -/
def sampleAfterEnter : CMState := run [Event.bufferEnter "/a" 1 0]

/-- Witness for C4 at a concrete state and a concrete 16 385-character
selection. -/
theorem visualChanged_truncation_witness :
    findActiveRef sampleAfterEnter = some 0 ∧
    (((handleVisualChanged (List.replicate 16385 'a') sampleAfterEnter).store 0).selectedText =
        some ((List.replicate 16385 'a').take MAX_SELECTED_TEXT_LENGTH) ∧
      ((List.replicate 16385 'a').take MAX_SELECTED_TEXT_LENGTH).length =
        MAX_SELECTED_TEXT_LENGTH) ∧
    ((handleVisualChanged [] sampleAfterEnter).store 0).selectedText = none := by
  have hfind : findActiveRef sampleAfterEnter = some 0 := by decide
  have h := visualChanged_truncation sampleAfterEnter 0 hfind
  refine ⟨hfind, h.1 (List.replicate 16385 'a') ?_, h.2⟩
  rw [List.length_replicate]
  norm_num [MAX_SELECTED_TEXT_LENGTH]

/-! ### Claim C9: snapshots are only shallow copies -/

/-- C9 counterexample: the getter's snapshot is a shallow array copy, so a
`cursor_moved` applied after the read mutates the shared active `File`
object: observing the previously returned reference list through the
post-event heap differs from the snapshot taken at read time. -/
theorem snapshot_mutated_by_later_event :
    ¬ (viewRefs (step sampleAfterEnter (Event.cursorMoved 3 7)) (snapshotRefs sampleAfterEnter) =
       viewRefs sampleAfterEnter (snapshotRefs sampleAfterEnter)) := by
  decide

/-- C9 amended: a later cursor_moved or visual_changed mutates only the
`File` object that is active at the time of the event; any `File` reference
that is inactive then (in particular every non-active entry of a previously
returned snapshot) denotes an unchanged object afterwards. -/
theorem snapshot_inactive_frame (σ : CMState) (r : Nat)
    (hr : (σ.store r).isActive = false) (l c : Int) (ts : List Char) :
    (handleCursorMoved l c σ).store r = σ.store r ∧
    (handleVisualChanged ts σ).store r = σ.store r := by
  have hne : ∀ r0 : Nat, findActiveRef σ = some r0 → r ≠ r0 := by
    intro r0 hfind h
    subst h
    rw [findActiveRef_isActive hfind] at hr
    cases hr
  constructor
  · cases hfind : findActiveRef σ with
    | none => rw [handleCursorMoved_eq_none l c hfind]
    | some r0 =>
      rw [handleCursorMoved_eq_some l c hfind]
      dsimp only
      rw [setRef_other _ _ _ (hne r0 hfind)]
  · cases hfind : findActiveRef σ with
    | none => rw [handleVisualChanged_eq_none ts hfind]
    | some r0 =>
      rw [handleVisualChanged_eq_some ts hfind]
      dsimp only
      rw [setRef_other _ _ _ (hne r0 hfind)]

/-- Witness for the amended C9 at a concrete state and reference. -/
theorem snapshot_inactive_frame_witness :
    (sampleAfterEnter.store 1).isActive = false ∧
    ((handleCursorMoved 3 7 sampleAfterEnter).store 1 = sampleAfterEnter.store 1 ∧
     (handleVisualChanged ['x'] sampleAfterEnter).store 1 = sampleAfterEnter.store 1) :=
  ⟨by decide, snapshot_inactive_frame sampleAfterEnter 1 (by decide) 3 7 ['x']⟩

/-! ### Claim C10: the getter always reports a trusted workspace -/

/-- C10: Every IdeContext returned by the Context Aggregator's state getter
has `workspaceState.isTrusted = true`, regardless of the ingress event
history. -/
theorem state_isTrusted (es : List Event) :
    (state (run es)).workspaceState.isTrusted = true := rfl

/-! ### HTTP front-end security middlewares (createIdeServer) -/

/-- JS truthiness of an optional string: absent and empty are falsy. -/
def truthy : Option String → Bool
  | none => false
  | some s => !s.isEmpty

structure HttpRequest where
  origin : Option String
  host : Option String
  authorization : Option String
deriving Repr, DecidableEq

/-- The CORS middleware's origin callback: `if (!origin) allow` — any
request carrying a non-empty Origin header raises CORSError. -/
def corsAllows (req : HttpRequest) : Bool := !truthy req.origin

/-- `[`localhost:${port}`, `127.0.0.1:${port}`]`. -/
def allowedHosts (port : Nat) : List String :=
  ["localhost:" ++ toString port, "127.0.0.1:" ++ toString port]

/-- Host validation middleware: `req.headers.host || ''` must be in the
allow-list. -/
def hostAllowed (port : Nat) (req : HttpRequest) : Bool :=
  (allowedHosts port).contains (req.host.getD "")

/-- JS `String.prototype.split(' ')` (single-space separator, empty pieces
kept), on char lists. -/
def splitSpace : List Char → List Char → List (List Char)
  | acc, [] => [acc.reverse]
  | acc, c :: cs =>
      if c = ' ' then acc.reverse :: splitSpace [] cs else splitSpace (c :: acc) cs

/-- Bearer-token middleware: reject a missing or empty Authorization header,
a header that does not split into exactly `Bearer <token>`, or a token
different from the process-lifetime `authToken`. -/
def authAllowed (authToken : String) (req : HttpRequest) : Bool :=
  match req.authorization with
  | none => false
  | some h =>
      if h.isEmpty then false
      else
        match splitSpace [] h.data with
        | [scheme, token] => scheme == "Bearer".data && token == authToken.data
        | _ => false

inductive GateOutcome where
  | denied (status : Nat) (body : String)
  | passed
deriving Repr, DecidableEq

/-- The middleware chain in registration order: CORS (403 through the error
middleware), Host allow-list (403), bearer auth (401).  Only requests that
pass all three reach the `/mcp` route handlers. -/
def runSecurityGates (authToken : String) (port : Nat) (req : HttpRequest) : GateOutcome :=
  if !corsAllows req then .denied 403 "Request denied by CORS policy."
  else if !hostAllowed port req then .denied 403 "Invalid Host header"
  else if !authAllowed authToken req then .denied 401 "Unauthorized"
  else .passed

/-! ### POST /mcp dispatch (createIdeServer) -/

inductive DispatchTarget where
  | existing (sessionId : String)
  | newSession
deriving Repr, DecidableEq

/-- Abstract result of `await transport.handleRequest(req, res, req.body)`. -/
inductive DispatchOutcome where
  | ok
  | errorHeadersSent
  | errorNoHeadersSent
deriving Repr, DecidableEq

inductive McpResponse where
  | handled (t : DispatchTarget)
  | failedAfterResponse (t : DispatchTarget)
  | jsonRpcError (status : Nat) (code : Int) (message : String)
deriving Repr, DecidableEq

/-- The try/catch around `transport.handleRequest`: an error with headers
not yet sent yields HTTP 500 with JSON-RPC code -32603. -/
def dispatchResult (t : DispatchTarget) : DispatchOutcome → McpResponse
  | .ok => .handled t
  | .errorHeadersSent => .failedAfterResponse t
  | .errorNoHeadersSent => .jsonRpcError 500 (-32603) "Internal server error"

/-- The body of `app.post('/mcp', ...)`: `sessions` is the key set of the
`transports` map, `sessionId` the `mcp-session-id` header, `isInit` is
`isInitializeRequest(req.body)`. -/
def postMcp (sessions : List String) (sessionId : Option String) (isInit : Bool)
    (outcome : DispatchOutcome) : McpResponse :=
  if truthy sessionId && sessions.contains (sessionId.getD "") then
    dispatchResult (.existing (sessionId.getD "")) outcome
  else if !truthy sessionId && isInit then
    dispatchResult .newSession outcome
  else
    .jsonRpcError 400 (-32000)
      "Bad Request: No valid session ID provided for non-initialize request."

inductive ServerResponse where
  | gateDenied (status : Nat) (body : String)
  | mcp (r : McpResponse)
deriving Repr, DecidableEq

/-- A POST /mcp request end to end: the security gates run first; the route
handler (and with it any MCP transport) is reached only on `passed`. -/
def handlePostMcp (authToken : String) (port : Nat) (req : HttpRequest)
    (sessions : List String) (sessionId : Option String) (isInit : Bool)
    (outcome : DispatchOutcome) : ServerResponse :=
  match runSecurityGates authToken port req with
  | .denied s b => .gateDenied s b
  | .passed => .mcp (postMcp sessions sessionId isInit outcome)

/-- C3: a request with a non-empty Origin, a Host outside the allow-list, or
a missing/malformed/incorrect bearer token is answered 401 or 403 by the
middlewares and never reaches the MCP route; a request passing all three
gates proceeds to the route handler. -/
theorem security_gate_spec (tok : String) (port : Nat) (req : HttpRequest) :
    (truthy req.origin = true ∨ hostAllowed port req = false ∨ authAllowed tok req = false →
      ∃ s b, runSecurityGates tok port req = .denied s b ∧ (s = 401 ∨ s = 403) ∧
        ∀ (sessions : List String) (sessionId : Option String) (isInit : Bool)
          (outcome : DispatchOutcome),
          handlePostMcp tok port req sessions sessionId isInit outcome = .gateDenied s b) ∧
    (truthy req.origin = false → hostAllowed port req = true → authAllowed tok req = true →
      runSecurityGates tok port req = .passed ∧
      ∀ (sessions : List String) (sessionId : Option String) (isInit : Bool)
        (outcome : DispatchOutcome),
        handlePostMcp tok port req sessions sessionId isInit outcome =
          .mcp (postMcp sessions sessionId isInit outcome)) := by
  constructor
  · intro hbad
    cases horig : truthy req.origin with
    | true =>
      refine ⟨403, "Request denied by CORS policy.", ?_, Or.inr rfl, ?_⟩
      · simp [runSecurityGates, corsAllows, horig]
      · intro sessions sessionId isInit outcome
        simp [handlePostMcp, runSecurityGates, corsAllows, horig]
    | false =>
      cases hhost : hostAllowed port req with
      | false =>
        refine ⟨403, "Invalid Host header", ?_, Or.inr rfl, ?_⟩
        · simp [runSecurityGates, corsAllows, horig, hhost]
        · intro sessions sessionId isInit outcome
          simp [handlePostMcp, runSecurityGates, corsAllows, horig, hhost]
      | true =>
        have hauth : authAllowed tok req = false := by
          rcases hbad with h | h | h
          · rw [horig] at h; cases h
          · rw [hhost] at h; cases h
          · exact h
        refine ⟨401, "Unauthorized", ?_, Or.inl rfl, ?_⟩
        · simp [runSecurityGates, corsAllows, horig, hhost, hauth]
        · intro sessions sessionId isInit outcome
          simp [handlePostMcp, runSecurityGates, corsAllows, horig, hhost, hauth]
  · intro horig hhost hauth
    refine ⟨by simp [runSecurityGates, corsAllows, horig, hhost, hauth], ?_⟩
    intro sessions sessionId isInit outcome
    simp [handlePostMcp, runSecurityGates, corsAllows, horig, hhost, hauth]

/-- Witness for C3: a browser-style request is rejected 403 before the MCP
layer; a clean loopback request with the right token passes the gates. -/
theorem security_gate_spec_witness :
    (∃ s b,
      runSecurityGates "secret" 8080
        { origin := some "https://evil.example", host := some "localhost:8080",
          authorization := some "Bearer secret" } = .denied s b ∧ (s = 401 ∨ s = 403) ∧
      ∀ (sessions : List String) (sessionId : Option String) (isInit : Bool)
        (outcome : DispatchOutcome),
        handlePostMcp "secret" 8080
          { origin := some "https://evil.example", host := some "localhost:8080",
            authorization := some "Bearer secret" } sessions sessionId isInit outcome =
          .gateDenied s b) ∧
    (runSecurityGates "secret" 8080
        { origin := none, host := some "localhost:8080",
          authorization := some "Bearer secret" } = .passed ∧
      ∀ (sessions : List String) (sessionId : Option String) (isInit : Bool)
        (outcome : DispatchOutcome),
        handlePostMcp "secret" 8080
          { origin := none, host := some "localhost:8080",
            authorization := some "Bearer secret" } sessions sessionId isInit outcome =
          .mcp (postMcp sessions sessionId isInit outcome)) :=
  ⟨(security_gate_spec "secret" 8080
      { origin := some "https://evil.example", host := some "localhost:8080",
        authorization := some "Bearer secret" }).1 (Or.inl (by decide)),
   (security_gate_spec "secret" 8080
      { origin := none, host := some "localhost:8080",
        authorization := some "Bearer secret" }).2 (by decide) (by decide) (by decide)⟩

/-- C5: the POST /mcp route dispatches on the existing transport when the
mcp-session-id header names a live session; creates and dispatches on a new
session when no session id is supplied and the body is an initialize
request; answers 400 with JSON-RPC code -32000 and the exact message in
every other case; and turns a dispatch error with no response started into
500 with JSON-RPC code -32603. -/
theorem postMcp_spec (sessions : List String) (sessionId : Option String) (isInit : Bool)
    (outcome : DispatchOutcome) :
    (truthy sessionId = true → sessions.contains (sessionId.getD "") = true →
      postMcp sessions sessionId isInit outcome =
        dispatchResult (.existing (sessionId.getD "")) outcome) ∧
    (truthy sessionId = false → isInit = true →
      postMcp sessions sessionId isInit outcome = dispatchResult .newSession outcome) ∧
    (¬(truthy sessionId = true ∧ sessions.contains (sessionId.getD "") = true) →
     ¬(truthy sessionId = false ∧ isInit = true) →
      postMcp sessions sessionId isInit outcome =
        .jsonRpcError 400 (-32000)
          "Bad Request: No valid session ID provided for non-initialize request.") ∧
    (∀ t : DispatchTarget,
      dispatchResult t .errorNoHeadersSent =
        .jsonRpcError 500 (-32603) "Internal server error") := by
  refine ⟨?_, ?_, ?_, fun t => rfl⟩
  · intro h1 h2
    have hcond : (truthy sessionId && sessions.contains (sessionId.getD "")) = true := by
      rw [h1, h2]
      rfl
    simp only [postMcp, hcond]
    rfl
  · intro h1 h2
    have hfirst : (truthy sessionId && sessions.contains (sessionId.getD "")) = false := by
      rw [h1]
      rfl
    have hsecond : (!truthy sessionId && isInit) = true := by
      rw [h1, h2]
      rfl
    simp only [postMcp, hfirst, hsecond]
    rfl
  · intro h1 h2
    have hfirst : (truthy sessionId && sessions.contains (sessionId.getD "")) = false := by
      cases ht : truthy sessionId <;> cases hc : sessions.contains (sessionId.getD "")
      · rfl
      · rfl
      · rfl
      · exact absurd ⟨ht, hc⟩ h1
    have hsecond : (!truthy sessionId && isInit) = false := by
      cases ht : truthy sessionId <;> cases hi : isInit
      · rfl
      · exact absurd ⟨ht, hi⟩ h2
      · rfl
      · rfl
    simp only [postMcp, hfirst, hsecond]
    rfl

/-- Witness for C5 at concrete inputs: an existing-session dispatch, a new
session from an initialize body, a 400 for a stale session id, and the
500 error shape. -/
theorem postMcp_spec_witness :
    (postMcp ["s1"] (some "s1") false .ok = dispatchResult (.existing "s1") .ok) ∧
    (postMcp [] none true .ok = dispatchResult .newSession .ok) ∧
    (postMcp [] (some "dead") false .ok =
      .jsonRpcError 400 (-32000)
        "Bad Request: No valid session ID provided for non-initialize request.") ∧
    (dispatchResult (.existing "s1") .errorNoHeadersSent =
      .jsonRpcError 500 (-32603) "Internal server error") :=
  ⟨(postMcp_spec ["s1"] (some "s1") false .ok).1 (by decide) (by decide),
   (postMcp_spec [] none true .ok).2.1 (by decide) rfl,
   (postMcp_spec [] (some "dead") false .ok).2.2.1
     (by intro h; exact absurd h.2 (by decide)) (by intro h; exact absurd h.1 (by decide)),
   (postMcp_spec [] (some "dead") false .ok).2.2.2 (.existing "s1")⟩

/-! ### Keep-alive state machine (createIdeServer, POST /mcp session setup) -/

/-- Observable state of one session: membership of its id in the
`transports` map, whether the keep-alive interval is still armed, and the
`missedPings` counter. -/
structure SessionState where
  inMap : Bool
  timerActive : Bool
  missedPings : Nat
deriving Repr, DecidableEq

/-- Right after `onsessioninitialized` stored the transport in `transports`:
the keep-alive interval is armed and no ping has failed. -/
def freshSession : SessionState :=
  { inMap := true, timerActive := true, missedPings := 0 }

inductive SessionEvent where
  | pingSuccess
  | pingFailure
  | transportClose
deriving Repr, DecidableEq

/-- One transition of the session: ping outcomes only have an effect while
the interval is armed (`clearInterval` stops the callback).  A successful
send resets the counter; a failed send increments it and clears the interval
at three; `transport.onclose` clears the interval and deletes
`transports[sessionId]`. -/
def sessionStep (s : SessionState) : SessionEvent → SessionState
  | .pingSuccess => if s.timerActive then { s with missedPings := 0 } else s
  | .pingFailure =>
      if s.timerActive then
        { s with missedPings := s.missedPings + 1,
                 timerActive := if s.missedPings + 1 ≥ 3 then false else true }
      else s
  | .transportClose => { s with timerActive := false, inMap := false }

def sessionRun (s : SessionState) (es : List SessionEvent) : SessionState :=
  es.foldl sessionStep s

/-- C2 counterexample: on a freshly initialized session, three consecutive
keep-alive failures bring `missedPings` to 3 and clear the interval, but the
session id is still a key of the Hub's `transports` map — the failure path
only calls `clearInterval`, it neither closes the transport nor deletes the
map entry. -/
theorem third_ping_failure_keeps_session_in_map :
    (sessionRun freshSession [.pingFailure, .pingFailure, .pingFailure]).missedPings = 3 ∧
    (sessionRun freshSession [.pingFailure, .pingFailure, .pingFailure]).timerActive = false ∧
    (sessionRun freshSession [.pingFailure, .pingFailure, .pingFailure]).inMap = true := by
  decide

/-- C2 amended: three consecutive ping failures stop the keep-alive timer
(leaving the map entry untouched); the session's id leaves the Hub's map
when — and only when — its transport's `onclose` handler fires. -/
theorem keepAlive_stops_timer_then_close_removes (s : SessionState)
    (htimer : s.timerActive = true) (hmissed : s.missedPings = 0) :
    (sessionRun s [.pingFailure, .pingFailure, .pingFailure]).timerActive = false ∧
    (sessionRun s [.pingFailure, .pingFailure, .pingFailure]).missedPings = 3 ∧
    (sessionRun s [.pingFailure, .pingFailure, .pingFailure]).inMap = s.inMap ∧
    ∀ s2 : SessionState, (sessionStep s2 .transportClose).inMap = false := by
  cases s with
  | mk inMap timerActive missedPings =>
    subst htimer
    subst hmissed
    exact ⟨rfl, rfl, rfl, fun s2 => rfl⟩

/-- Witness for the amended C2 at the freshly initialized session. -/
theorem keepAlive_stops_timer_then_close_removes_witness :
    freshSession.timerActive = true ∧ freshSession.missedPings = 0 ∧
    ((sessionRun freshSession [.pingFailure, .pingFailure, .pingFailure]).timerActive = false ∧
     (sessionRun freshSession [.pingFailure, .pingFailure, .pingFailure]).missedPings = 3 ∧
     (sessionRun freshSession [.pingFailure, .pingFailure, .pingFailure]).inMap =
       freshSession.inMap ∧
     ∀ s2 : SessionState, (sessionStep s2 .transportClose).inMap = false) :=
  ⟨rfl, rfl, keepAlive_stops_timer_then_close_removes freshSession rfl rfl⟩

/-! ### Discovery files: names, start/stop lifecycle (port-file-manager.ts,
createIdeServer, nvim-env-writer.ts) -/

/-- The shared temporary directory's contents (paths relative to
`<tmp>/gemini/ide`), as the set of existing file names. -/
abbrev FileSystem := List String

/-- `fs.writeFile`: creates the file or overwrites it in place. -/
def writeFileFS (p : String) (fs : FileSystem) : FileSystem :=
  if fs.contains p then fs else p :: fs

/-- `fs.unlink` with errors ignored. -/
def unlinkFS (p : String) (fs : FileSystem) : FileSystem :=
  fs.filter (fun q => q != p)

/-- `getPortFilePath`: `gemini-ide-server-${processId}-${port}.json`. -/
def portFilePath (pid port : Nat) : String :=
  "gemini-ide-server-" ++ toString pid ++ "-" ++ toString port ++ ".json"

/-- The NvimEnvironmentWriter's script name: `nvim-env-${processId}.sh`. -/
def envScriptPath (pid : Nat) : String :=
  "nvim-env-" ++ toString pid ++ ".sh"

theorem not_mem_unlinkFS (p : String) (fs : FileSystem) : p ∉ unlinkFS p fs := by
  intro h
  have h2 := (List.mem_filter.mp h).2
  simp at h2

theorem mem_of_mem_unlinkFS {q p : String} {fs : FileSystem} (h : q ∈ unlinkFS p fs) :
    q ∈ fs :=
  (List.mem_filter.mp h).1

/-- The file-related state owned by a running IDE server: the closure
variable `portFile` of `createIdeServer` and the `envScript`/`portFile`
fields of the NvimEnvironmentWriter. -/
structure ServerFiles where
  fs : FileSystem
  portFile : Option String
  envScript : Option String
  envWriterPortFile : Option String
deriving Repr, DecidableEq

/-- A successful `start()`: the listen callback computes `portFile` and
writes it; `envWriter.writeEnvironment` then writes `nvim-env-<pid>.sh` and
(again) the port file, recording both paths. -/
def startSuccess (pid port : Nat) (s : ServerFiles) : ServerFiles :=
  { fs := writeFileFS (portFilePath pid port)
            (writeFileFS (envScriptPath pid)
              (writeFileFS (portFilePath pid port) s.fs)),
    portFile := some (portFilePath pid port),
    envScript := some (envScriptPath pid),
    envWriterPortFile := some (portFilePath pid port) }

/-- `stop()` after the HTTP server closed without error:
`envWriter.clearEnvironment()` unlinks the env script and the writer's port
file, then the server unlinks its own `portFile`. -/
def stopServer (s : ServerFiles) : ServerFiles :=
  { s with
    fs :=
      (match s.portFile with
        | some p => unlinkFS p
        | none => id)
      ((match s.envWriterPortFile with
          | some p => unlinkFS p
          | none => id)
        ((match s.envScript with
            | some p => unlinkFS p
            | none => id) s.fs)) }

/-- C6: after `stop()` completes on a server that started successfully,
neither the port descriptor `gemini-ide-server-<pid>-<port>.json` nor the
env script `nvim-env-<pid>.sh` written by this process exists on disk. -/
theorem stop_removes_discovery_files (pid port : Nat) (s0 : ServerFiles) :
    portFilePath pid port ∉ (stopServer (startSuccess pid port s0)).fs ∧
    envScriptPath pid ∉ (stopServer (startSuccess pid port s0)).fs := by
  have h1 : (stopServer (startSuccess pid port s0)).fs =
      unlinkFS (portFilePath pid port)
        (unlinkFS (portFilePath pid port)
          (unlinkFS (envScriptPath pid) (startSuccess pid port s0).fs)) := rfl
  rw [h1]
  constructor
  · exact not_mem_unlinkFS _ _
  · intro hmem
    exact not_mem_unlinkFS _ _ (mem_of_mem_unlinkFS (mem_of_mem_unlinkFS hmem))

/-! ### Stale file reaper (cleanupStaleFiles, port-file-manager.ts) -/

def ONE_DAY_MS : Int := 24 * 60 * 60 * 1000

/-- One directory entry as seen by the reaper: its name and `stats.mtimeMs`. -/
structure DirEntry where
  name : String
  mtimeMs : Int
deriving Repr, DecidableEq

def stripPrefixChars : List Char → List Char → Option (List Char)
  | [], cs => some cs
  | _ :: _, [] => none
  | p :: ps, c :: cs => if c = p then stripPrefixChars ps cs else none

/-- `s.startsWith(pat)` on the underlying char lists. -/
def startsWithChars (s pat : String) : Bool :=
  (stripPrefixChars pat.data s.data).isSome

/-- The name filter at the top of the loop:
`file.startsWith('gemini-ide-server-') || file.startsWith('nvim-env-')`
(everything else is skipped). -/
def matchesReaperPattern (name : String) : Bool :=
  startsWithChars name "gemini-ide-server-" || startsWithChars name "nvim-env-"

/-- `parseInt` of the digit run captured by the regex group. -/
def digitsToNat (ds : List Char) : Nat :=
  ds.foldl (fun n c => n * 10 + (c.toNat - '0'.toNat)) 0

/-- One regex alternative of `(?:gemini-ide-server|nvim-env)-(\d+)` tried at
a fixed position: the literal (including the dash), then one or more
digits, matched greedily. -/
def pidAt (pat : String) (cs : List Char) : Option Nat :=
  match stripPrefixChars pat.data cs with
  | some rest =>
      if (rest.takeWhile Char.isDigit).isEmpty then none
      else some (digitsToNat (rest.takeWhile Char.isDigit))
  | none => none

/-- `file.match(/(?:gemini-ide-server|nvim-env)-(\d+)/)`: positions are
scanned left to right, the alternatives tried in order at each position. -/
def pidSearch : List Char → Option Nat
  | [] => none
  | c :: cs =>
      match pidAt "gemini-ide-server-" (c :: cs) with
      | some n => some n
      | none =>
          match pidAt "nvim-env-" (c :: cs) with
          | some n => some n
          | none => pidSearch cs

def extractPid (name : String) : Option Nat := pidSearch name.data

/-- The per-file decision of `cleanupStaleFiles` (`true` = unlink): skip
names outside the two prefixes; unlink anything whose age exceeds 24 h;
otherwise extract the embedded pid and unlink exactly when the liveness
probe `process.kill(pid, 0)` throws; keep the file when no pid is found. -/
def reapDecision (now : Int) (isLive : Nat → Bool) (e : DirEntry) : Bool :=
  if matchesReaperPattern e.name then
    if now - e.mtimeMs > ONE_DAY_MS then true
    else
      match extractPid e.name with
      | some pid => !isLive pid
      | none => false
  else false

/-- The whole sweep: the directory afterwards holds the entries the loop did
not unlink. -/
def cleanupStaleFiles (now : Int) (isLive : Nat → Bool) (entries : List DirEntry) :
    List DirEntry :=
  entries.filter (fun e => !reapDecision now isLive e)

/-- C7: the reaper unlinks a file only if its mtime is older than 24 hours
or the pid embedded in its name is not live; a file whose owner is live and
whose mtime is within 24 hours is never unlinked and survives the sweep. -/
theorem reaper_safety (now : Int) (isLive : Nat → Bool) (e : DirEntry) :
    (reapDecision now isLive e = true →
      now - e.mtimeMs > ONE_DAY_MS ∨
      ∃ pid, extractPid e.name = some pid ∧ isLive pid = false) ∧
    ((∀ pid, extractPid e.name = some pid → isLive pid = true) →
      now - e.mtimeMs ≤ ONE_DAY_MS →
      reapDecision now isLive e = false ∧
      ∀ entries : List DirEntry, e ∈ entries → e ∈ cleanupStaleFiles now isLive entries) := by
  constructor
  · intro h
    unfold reapDecision at h
    by_cases hm : matchesReaperPattern e.name = true
    · rw [if_pos hm] at h
      by_cases hage : now - e.mtimeMs > ONE_DAY_MS
      · exact Or.inl hage
      · rw [if_neg hage] at h
        cases hpid : extractPid e.name with
        | none => simp only [hpid] at h; cases h
        | some pid =>
          simp only [hpid] at h
          refine Or.inr ⟨pid, rfl, ?_⟩
          cases hl : isLive pid
          · rfl
          · rw [hl] at h; cases h
    · rw [if_neg hm] at h; cases h
  · intro hlive hage
    have hdec : reapDecision now isLive e = false := by
      unfold reapDecision
      by_cases hm : matchesReaperPattern e.name = true
      · rw [if_pos hm, if_neg (by omega)]
        cases hpid : extractPid e.name with
        | none => simp only [hpid]
        | some pid => simp only [hpid, hlive pid hpid]; rfl
      · rw [if_neg hm]
    refine ⟨hdec, ?_⟩
    intro entries he
    unfold cleanupStaleFiles
    rw [List.mem_filter]
    exact ⟨he, by rw [hdec]; rfl⟩

/-- Witness for C7: with every pid live, a recent descriptor is kept (and
survives the sweep); a descriptor of a dead pid is unlinked for the pid
reason. -/
theorem reaper_safety_witness :
    ((∀ pid, extractPid "gemini-ide-server-42-100.json" = some pid → (fun _ => true) pid = true) ∧
      (1000 : Int) - 0 ≤ ONE_DAY_MS ∧
      reapDecision 1000 (fun _ => true) { name := "gemini-ide-server-42-100.json", mtimeMs := 0 } =
        false ∧
      { name := "gemini-ide-server-42-100.json", mtimeMs := (0 : Int) } ∈
        cleanupStaleFiles 1000 (fun _ => true)
          [{ name := "gemini-ide-server-42-100.json", mtimeMs := 0 }]) ∧
    (reapDecision 1000 (fun _ => false) { name := "nvim-env-7.sh", mtimeMs := 0 } = true ∧
      ((1000 : Int) - 0 > ONE_DAY_MS ∨
        ∃ pid, extractPid "nvim-env-7.sh" = some pid ∧ (fun _ => false) pid = false)) := by
  have hlive : ∀ pid, extractPid "gemini-ide-server-42-100.json" = some pid →
      (fun _ : Nat => true) pid = true := fun _ _ => rfl
  have hage : (1000 : Int) - 0 ≤ ONE_DAY_MS := by decide
  have h1 := (reaper_safety 1000 (fun _ => true)
      { name := "gemini-ide-server-42-100.json", mtimeMs := 0 }).2 hlive hage
  refine ⟨⟨hlive, hage, h1.1, h1.2 _ (by decide)⟩, ?_, ?_⟩
  · decide
  · exact (reaper_safety 1000 (fun _ => false) { name := "nvim-env-7.sh", mtimeMs := 0 }).1
      (by decide)

/-! ### Hard-exit cleanup (index.ts, process.on('exit')) -/

/-- What the exit handler's `server.portFile` property read (through the
`as unknown as` cast) yields at runtime: the IDEServer class declares only
`baseServer` and `diffManager`; the `portFile` variable lives inside the
`createIdeServer` closure and is never exposed as a property of the
returned object or of IDEServer, so the property access yields
`undefined`. -/
def ideServerPortFileProperty : Option String := none

/-- The `process.on('exit')` handler: if the `portFile` property is truthy,
`unlinkSync` it; if `context.processId` is truthy, `unlinkSync`
`nvim-env-<pid>.sh`. -/
def exitHandler (serverPortFile : Option String) (processId : Nat)
    (fs : FileSystem) : FileSystem :=
  if processId != 0 then
    unlinkFS (envScriptPath processId)
      (match serverPortFile with
        | some p => unlinkFS p fs
        | none => fs)
  else
    match serverPortFile with
    | some p => unlinkFS p fs
    | none => fs

/-- C8 evaluated at the failing input: after a successful start (pid 12345,
port 43210), a hard exit runs the handler with the always-undefined
`portFile` property; the env script is unlinked but the port descriptor is
left on disk — the descriptor unlink is never attempted. -/
theorem hard_exit_leaves_descriptor :
    portFilePath 12345 43210 ∈
      exitHandler ideServerPortFileProperty 12345
        [portFilePath 12345 43210, envScriptPath 12345] ∧
    envScriptPath 12345 ∉
      exitHandler ideServerPortFileProperty 12345
        [portFilePath 12345 43210, envScriptPath 12345] := by
  decide

end IdeBridge
